import Mathlib

set_option linter.unusedVariables false

/-!
Verification of the ridemapper session core (server/src/services/SessionManager.ts
and the socket/HTTP handlers of the server entry point) against its
natural-language specification.  The TypeScript code is shallowly embedded:
JS Map objects become association lists, Prisma database calls become explicit
state passing over a database record, and the nondeterminism of uuid / random /
Date.now is exposed as explicit parameters.
-/

namespace RideMapper

/-! ### Association-list model of JS Map -/

/-- Map.get: value of the first entry with the given key. -/
def mget {α : Type} : List (String × α) → String → Option α
  | [], _ => none
  | e :: rest, k => if e.1 = k then some e.2 else mget rest k

/-- Map.set: replace the value at the key in place, or append a new entry. -/
def mset {α : Type} : List (String × α) → String → α → List (String × α)
  | [], k, v => [(k, v)]
  | e :: rest, k, v => if e.1 = k then (k, v) :: rest else e :: mset rest k v

/-- Map.delete: remove the entry with the given key. -/
def mdel {α : Type} : List (String × α) → String → List (String × α)
  | [], _ => []
  | e :: rest, k => if e.1 = k then mdel rest k else e :: mdel rest k

/-- Map.keys. -/
def mkeys {α : Type} (m : List (String × α)) : List String := m.map Prod.fst

/-- Deleting a list of keys one after the other. -/
def mdelAll {α : Type} (m : List (String × α)) (ks : List String) : List (String × α) :=
  ks.foldl mdel m

/-! ### Data model (server/src/types.ts, newer revision with isManager) -/

/-- Geographic fix; coordinates are only stored and forwarded by the core,
never computed with, so they are modelled as integers. -/
structure Location where
  lat : Int
  lng : Int
  timestamp : Nat
deriving DecidableEq, Repr

inductive PointType
  | start
  | stop
  | waypoint
deriving DecidableEq, Repr

structure RoutePoint where
  lat : Int
  lng : Int
  ptype : PointType
deriving DecidableEq, Repr

structure Route where
  id : String
  name : String
  description : Option String
  points : List RoutePoint
  createdBy : String
  createdAt : Nat
  updatedAt : Nat
  isTemplate : Bool
deriving DecidableEq, Repr

/-- Participant; `isManager` is required by the shared types but the
SessionManager code constructs participants without it, which JS reads as a
falsy value, modelled as `false`. -/
structure Participant where
  id : String
  name : String
  location : Option Location
  isOnline : Bool
  isManager : Bool
  joinedAt : Nat
  lastSeen : Nat
deriving DecidableEq, Repr

structure Session where
  id : String
  pin : String
  managerId : String
  managerName : String
  routeId : Option String
  route : Option Route
  participants : List (String × Participant)
  createdAt : Nat
  updatedAt : Nat
  isActive : Bool
  endsAt : Option Nat
deriving DecidableEq, Repr

/-- A row of the Prisma `sessions` table (prisma/schema.prisma). -/
structure DbSession where
  id : String
  pin : String
  managerId : String
  managerName : String
  routeId : Option String
  createdAt : Nat
  updatedAt : Nat
  isActive : Bool
  endsAt : Option Nat
deriving DecidableEq, Repr

/-- The persistence store: the sessions table plus the routes table. -/
structure Db where
  sessions : List DbSession
  routes : List (String × Route)
deriving DecidableEq, Repr

/-- The in-memory state of SessionManager together with the database:
`activeSessions`, `sessionsByPin` and `participantSessions` are the three
private Maps of the class. -/
structure SMState where
  activeSessions : List (String × Session)
  sessionsByPin : List (String × String)
  participantSessions : List (String × String)
  db : Db
deriving DecidableEq, Repr

/-! ### Database primitives -/

/-- prisma.session.findUnique on the primary key. -/
def dbFindById : List DbSession → String → Option DbSession
  | [], _ => none
  | r :: rest, i => if r.id = i then some r else dbFindById rest i

/-- prisma.session.findFirst where isActive, orderBy createdAt desc:
the active row with the greatest creation time. -/
def dbFindFirstActive : List DbSession → Option DbSession
  | [] => none
  | r :: rest =>
    match dbFindFirstActive rest with
    | none => if r.isActive = true then some r else none
    | some b => if r.isActive = true ∧ b.createdAt < r.createdAt then some r else some b

/-- The unique-index check of the sessions table: primary key on id and the
global unique index on pin (sessions_pin_key). -/
def dbHasConflict : List DbSession → String → String → Bool
  | [], _, _ => false
  | r :: rest, i, p => if r.id = i ∨ r.pin = p then true else dbHasConflict rest i p

/-- prisma.session.create: raises on a unique-constraint violation, otherwise
appends the row. -/
def dbCreateSession (db : Db) (row : DbSession) : Except String Db :=
  if dbHasConflict db.sessions row.id row.pin = true then
    Except.error "Unique constraint failed"
  else
    Except.ok { db with sessions := db.sessions ++ [row] }

/-- prisma.session.update marking a session inactive (endSession). -/
def dbMarkInactive (db : Db) (sessionId : String) (now : Nat) : Db :=
  { db with
    sessions := db.sessions.map fun r =>
      if r.id = sessionId then { r with isActive := false, endsAt := some now, updatedAt := now }
      else r }

/-- prisma.session.update setting routeId (assignRouteToSession). -/
def dbSetRoute (db : Db) (sessionId routeId : String) (now : Nat) : Db :=
  { db with
    sessions := db.sessions.map fun r =>
      if r.id = sessionId then { r with routeId := some routeId, updatedAt := now }
      else r }

/-- DatabaseService.cleanup: deleteMany of rows that are inactive or older
than the 24 hour retention window. -/
def dbSweep : List DbSession → Nat → List DbSession
  | [], _ => []
  | r :: rest, now =>
    if r.isActive = false ∨ r.createdAt < now - 86400000 then dbSweep rest now
    else r :: dbSweep rest now

/-! ### SessionManager operations -/

/-- mapPrismaSessionToSession: participants are memory-only, so the restored
session starts with an empty participant map. -/
def mapPrismaSessionToSession (db : Db) (row : DbSession) : Session :=
  { id := row.id
    pin := row.pin
    managerId := row.managerId
    managerName := row.managerName
    routeId := row.routeId
    route := row.routeId.bind fun rid => mget db.routes rid
    participants := []
    createdAt := row.createdAt
    updatedAt := row.updatedAt
    isActive := row.isActive
    endsAt := row.endsAt }

/-- getSession. -/
def getSession (st : SMState) (sessionId : String) : Option Session :=
  mget st.activeSessions sessionId

/-- getSessionFromDatabase. -/
def getSessionFromDatabase (st : SMState) (sessionId : String) : Option Session :=
  (dbFindById st.db.sessions sessionId).map (mapPrismaSessionToSession st.db)

/-- getAllActiveSessions. -/
def getAllActiveSessions (st : SMState) : List Session :=
  (st.activeSessions.map Prod.snd).filter fun s => s.isActive

/-- getParticipantSession. -/
def getParticipantSession (st : SMState) (participantId : String) : Option Session :=
  (mget st.participantSessions participantId).bind fun sid => mget st.activeSessions sid

/-- getAnyActiveSession: first the memory cache, then the database; a database
hit is cached into activeSessions and sessionsByPin (but participantSessions is
untouched). -/
def getAnyActiveSession (st : SMState) : Option Session × SMState :=
  match getAllActiveSessions st with
  | s :: _ => (some s, st)
  | [] =>
    match dbFindFirstActive st.db.sessions with
    | some row =>
      let s := mapPrismaSessionToSession st.db row
      (some s,
        { st with
          activeSessions := mset st.activeSessions s.id s
          sessionsByPin := mset st.sessionsByPin s.pin s.id })
    | none => (none, st)

/-- generatePin: Math.floor(100000 + Math.random() * 900000).toString() —
a single draw, with the random source exposed as the argument. -/
def generatePin (draw : Nat) : String :=
  toString (100000 + draw % 900000)

/-- The part of createSession that runs when no active session exists:
database insert first, then the in-memory session whose only participant is
the manager (the code does not set isManager on it, so it is falsy). -/
def createSessionFresh (st : SMState) (managerName : String) (routeId : Option String)
    (route : Option Route) (sessionId managerId pin : String) (now : Nat) :
    Except String (Session × SMState) :=
  match dbCreateSession st.db
      { id := sessionId, pin := pin, managerId := managerId, managerName := managerName,
        routeId := routeId, createdAt := now, updatedAt := now, isActive := true,
        endsAt := none } with
  | Except.error e => Except.error e
  | Except.ok db1 =>
    let managerParticipant : Participant :=
      { id := managerId, name := managerName ++ " (Manager)", location := none,
        isOnline := true, isManager := false, joinedAt := now, lastSeen := now }
    let session : Session :=
      { id := sessionId, pin := pin, managerId := managerId, managerName := managerName,
        routeId := routeId, route := route,
        participants := mset [] managerId managerParticipant,
        createdAt := now, updatedAt := now, isActive := true, endsAt := none }
    Except.ok (session,
      { st with
        db := db1
        activeSessions := mset st.activeSessions sessionId session
        sessionsByPin := mset st.sessionsByPin pin sessionId
        participantSessions := mset st.participantSessions managerId sessionId })

/-- createSession: when any active session exists it is returned as-is (the
caller is not inserted anywhere); otherwise a fresh session is created with
the caller as the sole manager participant.  Throws RouteNotFound when the
given routeId does not resolve. -/
def createSession (st : SMState) (managerName : String) (routeId : Option String)
    (sessionId managerId : String) (draw now : Nat) :
    Except String (Session × SMState) :=
  match getAnyActiveSession st with
  | (some existing, st1) => Except.ok (existing, st1)
  | (none, st1) =>
    let pin := generatePin draw
    match routeId with
    | some rid =>
      match mget st1.db.routes rid with
      | none => Except.error "Route not found"
      | some route => createSessionFresh st1 managerName routeId (some route) sessionId managerId pin now
    | none => createSessionFresh st1 managerName none none sessionId managerId pin now

/-- The state produced by a createSession call (errors leave the state as it
was when they were raised). -/
def createSessionState (st : SMState) (managerName : String) (routeId : Option String)
    (sessionId managerId : String) (draw now : Nat) : SMState :=
  match createSession st managerName routeId sessionId managerId draw now with
  | Except.ok (_, st1) => st1
  | Except.error _ => st

structure JoinResult where
  success : Bool
  session : Option Session
  participantId : Option String
  error : Option String
deriving DecidableEq, Repr

/-- joinSession. -/
def joinSession (st : SMState) (pin participantName participantId : String) (now : Nat) :
    JoinResult × SMState :=
  match mget st.sessionsByPin pin with
  | none => ({ success := false, session := none, participantId := none, error := some "Invalid PIN" }, st)
  | some sessionId =>
    match mget st.activeSessions sessionId with
    | none =>
      ({ success := false, session := none, participantId := none,
         error := some "Session not found or inactive" }, st)
    | some session =>
      if session.isActive = false then
        ({ success := false, session := none, participantId := none,
           error := some "Session not found or inactive" }, st)
      else
        let participant : Participant :=
          { id := participantId, name := participantName, location := none,
            isOnline := true, isManager := false, joinedAt := now, lastSeen := now }
        let session1 := { session with participants := mset session.participants participantId participant }
        ({ success := true, session := some session1, participantId := some participantId, error := none },
         { st with
           activeSessions := mset st.activeSessions sessionId session1
           participantSessions := mset st.participantSessions participantId sessionId })

/-- Modelled from the spec: the server-side joinAsManager operation called by
the session:join-as-manager handler is not present under src (only its caller
and the client side are).  Spec 4.2: same pin validation as joinSession;
inserts a Participant flagged isManager = true with the caller-supplied
managerId and returns the session together with that participantId. -/
def joinAsManager (st : SMState) (pin managerName managerId : String) (now : Nat) :
    JoinResult × SMState :=
  match mget st.sessionsByPin pin with
  | none => ({ success := false, session := none, participantId := none, error := some "Invalid PIN" }, st)
  | some sessionId =>
    match mget st.activeSessions sessionId with
    | none =>
      ({ success := false, session := none, participantId := none,
         error := some "Session not found or inactive" }, st)
    | some session =>
      if session.isActive = false then
        ({ success := false, session := none, participantId := none,
           error := some "Session not found or inactive" }, st)
      else
        let participant : Participant :=
          { id := managerId, name := managerName, location := none,
            isOnline := true, isManager := true, joinedAt := now, lastSeen := now }
        let session1 := { session with participants := mset session.participants managerId participant }
        ({ success := true, session := some session1, participantId := some managerId, error := none },
         { st with
           activeSessions := mset st.activeSessions sessionId session1
           participantSessions := mset st.participantSessions managerId sessionId })

/-- endSession: database update first (prisma.session.update throws when the
row is missing, and `dbOk` abstracts any other persistence failure; the catch
block then returns false with the memory untouched); only after the write
succeeds are the participant entries, the pin mapping and the cached session
evicted. -/
def endSession (st : SMState) (sessionId : String) (dbOk : Bool) (now : Nat) :
    Bool × SMState :=
  match mget st.activeSessions sessionId with
  | none => (false, st)
  | some session =>
    if dbOk = true ∧ (dbFindById st.db.sessions sessionId).isSome = true then
      (true,
       { st with
         db := dbMarkInactive st.db sessionId now
         participantSessions := mdelAll st.participantSessions (mkeys session.participants)
         sessionsByPin := mdel st.sessionsByPin session.pin
         activeSessions := mdel st.activeSessions sessionId })
    else (false, st)

structure LeaveResult where
  success : Bool
  sessionId : Option String
  wasManager : Option Bool
deriving DecidableEq, Repr

/-- leaveSession: removes the participant from memory; when the departing id
is the session managerId the session is ended (cascading to endSession). -/
def leaveSession (st : SMState) (participantId : String) (dbOk : Bool) (now : Nat) :
    LeaveResult × SMState :=
  match mget st.participantSessions participantId with
  | none => ({ success := false, sessionId := none, wasManager := none }, st)
  | some sessionId =>
    match mget st.activeSessions sessionId with
    | none => ({ success := false, sessionId := none, wasManager := none }, st)
    | some session =>
      match mget session.participants participantId with
      | none => ({ success := false, sessionId := none, wasManager := none }, st)
      | some _ =>
        let wasManager : Bool := decide (participantId = session.managerId)
        let session1 := { session with participants := mdel session.participants participantId }
        let st1 : SMState :=
          { st with
            activeSessions := mset st.activeSessions sessionId session1
            participantSessions := mdel st.participantSessions participantId }
        let st2 := if wasManager = true then (endSession st1 sessionId dbOk now).2 else st1
        ({ success := true, sessionId := some sessionId, wasManager := some wasManager }, st2)

structure LocResult where
  success : Bool
  sessionId : Option String
deriving DecidableEq, Repr

/-- updateParticipantLocation: stores the new location and lastSeen in memory
only. -/
def updateParticipantLocation (st : SMState) (participantId : String) (lat lng : Int)
    (now : Nat) : LocResult × SMState :=
  match mget st.participantSessions participantId with
  | none => ({ success := false, sessionId := none }, st)
  | some sessionId =>
    match mget st.activeSessions sessionId with
    | none => ({ success := false, sessionId := none }, st)
    | some session =>
      if session.isActive = false then ({ success := false, sessionId := none }, st)
      else
        match mget session.participants participantId with
        | none => ({ success := false, sessionId := none }, st)
        | some participant =>
          let newLoc : Location := { lat := lat, lng := lng, timestamp := now }
          let participant1 := { participant with location := some newLoc, lastSeen := now }
          let session1 :=
            { session with participants := mset session.participants participantId participant1 }
          ({ success := true, sessionId := some sessionId },
           { st with activeSessions := mset st.activeSessions sessionId session1 })

structure ValidateResult where
  success : Bool
  session : Option Session
  error : Option String
deriving DecidableEq, Repr

/-- validateManager: in single-session mode any manager can manage any active
session, so the managerId argument is never consulted. -/
def validateManager (st : SMState) (sessionId managerId : String) : ValidateResult :=
  match mget st.activeSessions sessionId with
  | none =>
    match getSessionFromDatabase st sessionId with
    | some dbSession =>
      if dbSession.isActive = true then { success := true, session := some dbSession, error := none }
      else { success := false, session := none, error := some "Session not found" }
    | none => { success := false, session := none, error := some "Session not found" }
  | some session =>
    if session.isActive = false then
      { success := false, session := none, error := some "Session is not active" }
    else { success := true, session := some session, error := none }

/-- assignRouteToSession. -/
def assignRouteToSession (st : SMState) (sessionId routeId managerId : String) (now : Nat) :
    Bool × SMState :=
  match mget st.activeSessions sessionId with
  | none => (false, st)
  | some session =>
    if session.isActive = false ∨ ¬ session.managerId = managerId then (false, st)
    else
      match mget st.db.routes routeId with
      | none => (false, st)
      | some route =>
        if (dbFindById st.db.sessions sessionId).isSome = true then
          let session1 := { session with routeId := some routeId, route := some route }
          (true,
           { st with
             db := dbSetRoute st.db sessionId routeId now
             activeSessions := mset st.activeSessions sessionId session1 })
        else (false, st)

/-- The body of the initialization routine: every active database row is
mapped (with an empty participant map) and cached. -/
def initFold (db : Db) : List DbSession → SMState → SMState
  | [], acc => acc
  | r :: rest, acc =>
    let s := mapPrismaSessionToSession db r
    initFold db rest
      { acc with
        activeSessions := mset acc.activeSessions s.id s
        sessionsByPin := mset acc.sessionsByPin s.pin s.id }

/-- The initialization routine of SessionManager: load all active sessions
from the database into memory (no participant mapping is restored). -/
def initFromDb (st : SMState) : SMState :=
  initFold st.db (st.db.sessions.filter fun r => r.isActive) st

/-- cleanup: the database sweep followed by reloading active sessions. -/
def cleanup (st : SMState) (now : Nat) : SMState :=
  initFromDb { st with db := { st.db with sessions := dbSweep st.db.sessions now } }

/-- The in-place `session.route = route` mutation performed by
updateSessionRoute on the cached session. -/
def setSessionRouteInMemory (st : SMState) (sessionId : String) (route : Route) : SMState :=
  match mget st.activeSessions sessionId with
  | none => st
  | some session =>
    { st with activeSessions := mset st.activeSessions sessionId { session with route := some route } }

/-! ### Socket and HTTP handlers (server entry point) -/

/-- socket.to(room): every connection subscribed to the room except the
sending socket itself. -/
def socketTo : List String → String → List String
  | [], _ => []
  | c :: rest, sender => if c = sender then socketTo rest sender else c :: socketTo rest sender

structure RejoinReply where
  success : Bool
  session : Option Session
  error : Option String
deriving DecidableEq, Repr

/-- The session:rejoin handler: looks the participant up through
participantSessions (inlining getParticipantSession), requires the session to
be active and to match the client-held sessionId, marks the participant online
(a mutation of the object cached under the looked-up key) and returns the
session snapshot. -/
def handleRejoin (st : SMState) (sessionId participantId : String) : RejoinReply × SMState :=
  match mget st.participantSessions participantId with
  | none => ({ success := false, session := none, error := some "Session not found or access denied" }, st)
  | some storedSid =>
    match mget st.activeSessions storedSid with
    | none => ({ success := false, session := none, error := some "Session not found or access denied" }, st)
    | some session =>
      if session.isActive = true ∧ session.id = sessionId then
        match mget session.participants participantId with
        | none => ({ success := false, session := none, error := some "Participant not found in session" }, st)
        | some participant =>
          let participant1 := { participant with isOnline := true }
          let session1 :=
            { session with participants := mset session.participants participantId participant1 }
          ({ success := true, session := some session1, error := none },
           { st with activeSessions := mset st.activeSessions storedSid session1 })
      else
        ({ success := false, session := none, error := some "Session not found or access denied" }, st)

inductive MessageType
  | direct
  | broadcast
deriving DecidableEq, Repr

structure Message where
  id : String
  sessionId : String
  fromId : String
  toId : Option String
  content : String
  timestamp : Nat
  mtype : MessageType
deriving DecidableEq, Repr

/-- The message:send handler: stamps a server-side id (from Date.now and a
random suffix) and timestamp, then emits message:received; the direct branch
deliberately falls back to the same room-wide emit as broadcast (the code has
no socket mapping for recipient-only delivery). -/
def handleMessageSend (sessionId fromId : String) (toId : Option String) (content : String)
    (mtype : MessageType) (now : Nat) (rand : String) (room : List String) (sender : String) :
    Message × List String :=
  let message : Message :=
    { id := "msg_" ++ toString now ++ "_" ++ rand, sessionId := sessionId, fromId := fromId,
      toId := toId, content := content, timestamp := now, mtype := mtype }
  match mtype with
  | MessageType.broadcast => (message, socketTo room sender)
  | MessageType.direct => (message, socketTo room sender)

structure LocationUpdatedPayload where
  sessionId : String
  participantId : String
  location : Location
deriving DecidableEq, Repr

/-- The location:update socket handler: mutate the store, then broadcast the
client-supplied location object to the other connections of the session room
(socket.to excludes the sender). -/
def handleLocationUpdateSocket (st : SMState) (participantId : String) (loc : Location)
    (now : Nat) (room : List String) (sender : String) :
    SMState × List (String × LocationUpdatedPayload) :=
  match updateParticipantLocation st participantId loc.lat loc.lng now with
  | (res, st1) =>
    match res.sessionId, res.success with
    | some sid, true =>
      (st1, (socketTo room sender).map fun c =>
        (c, { sessionId := sid, participantId := participantId, location := loc }))
    | _, _ => (st1, [])

/-- The JSON body of POST /api/location; absent fields are `none`. -/
structure ApiLocationBody where
  sessionId : String
  participantId : String
  location : Option Location
  timestamp : Option Nat
deriving DecidableEq, Repr

structure ApiResponse where
  status : Nat
  success : Bool
deriving DecidableEq, Repr

/-- The POST /api/location handler: JS truthiness validation (an empty string
or a zero coordinate is falsy and is rejected with 400), then the same
updateParticipantLocation mutation, then io.to(room) — which, unlike
socket.to, reaches every connection in the room. -/
def handleApiLocation (st : SMState) (body : ApiLocationBody) (now : Nat)
    (room : List String) :
    ApiResponse × SMState × List (String × LocationUpdatedPayload) :=
  match body.location with
  | none => ({ status := 400, success := false }, st, [])
  | some loc =>
    if body.sessionId = "" ∨ body.participantId = "" ∨ loc.lat = 0 ∨ loc.lng = 0 then
      ({ status := 400, success := false }, st, [])
    else
      match updateParticipantLocation st body.participantId loc.lat loc.lng now with
      | (res, st1) =>
        match res.sessionId, res.success with
        | some sid, true =>
          ({ status := 200, success := true }, st1, room.map fun c =>
            (c, { sessionId := sid, participantId := body.participantId, location := loc }))
        | _, _ => ({ status := 404, success := false }, st1, [])

/-! ### Reachability -/

/-- The empty server state a deployment starts from. -/
def initialState : SMState :=
  { activeSessions := [], sessionsByPin := [], participantSessions := [], db := { sessions := [], routes := [] } }

/-- One externally triggered operation of the session core.  Fresh
identifiers, random draws, timestamps, and persistence success are all
existentially free, and the route table may be rewritten arbitrarily (covering
every RouteService operation, none of which touches the sessions table). -/
inductive Step : SMState → SMState → Prop
  | create (st : SMState) (managerName : String) (routeId : Option String)
      (sessionId managerId : String) (draw now : Nat) :
      Step st (createSessionState st managerName routeId sessionId managerId draw now)
  | join (st : SMState) (pin participantName participantId : String) (now : Nat) :
      Step st (joinSession st pin participantName participantId now).2
  | joinManager (st : SMState) (pin managerName managerId : String) (now : Nat) :
      Step st (joinAsManager st pin managerName managerId now).2
  | leave (st : SMState) (participantId : String) (dbOk : Bool) (now : Nat) :
      Step st (leaveSession st participantId dbOk now).2
  | endSess (st : SMState) (sessionId : String) (dbOk : Bool) (now : Nat) :
      Step st (endSession st sessionId dbOk now).2
  | updateLoc (st : SMState) (participantId : String) (lat lng : Int) (now : Nat) :
      Step st (updateParticipantLocation st participantId lat lng now).2
  | anyActive (st : SMState) :
      Step st (getAnyActiveSession st).2
  | rejoin (st : SMState) (sessionId participantId : String) :
      Step st (handleRejoin st sessionId participantId).2
  | initStep (st : SMState) :
      Step st (initFromDb st)
  | cleanupStep (st : SMState) (now : Nat) :
      Step st (cleanup st now)
  | assignRoute (st : SMState) (sessionId routeId managerId : String) (now : Nat) :
      Step st (assignRouteToSession st sessionId routeId managerId now).2
  | setRoute (st : SMState) (sessionId : String) (route : Route) :
      Step st (setSessionRouteInMemory st sessionId route)
  | routesStep (st : SMState) (routes : List (String × Route)) :
      Step st { st with db := { st.db with routes := routes } }

/-- States reachable from a fresh deployment. -/
def Reachable (st : SMState) : Prop :=
  Relation.ReflTransGen Step initialState st

/-- Identifiers of sessions cached in memory with isActive = true. -/
def memActiveIds (st : SMState) : List String :=
  (st.activeSessions.filter fun e => e.2.isActive).map Prod.fst

/-- Identifiers of database rows with isActive = true. -/
def dbActiveIds (st : SMState) : List String :=
  (st.db.sessions.filter fun r => r.isActive).map DbSession.id

/-- All identifiers of active sessions, in memory or persisted. -/
def activeIds (st : SMState) : List String :=
  memActiveIds st ++ dbActiveIds st

/-- The single-active-session invariant: any two active session identifiers
coincide. -/
def SingleActive (st : SMState) : Prop :=
  ∀ i ∈ activeIds st, ∀ j ∈ activeIds st, i = j

/-! ### Concrete fixtures used by witnesses and counterexamples -/

/-- The creator manager participant of the sample session (isManager is falsy
because createSession does not set it). -/
def aliceP : Participant :=
  { id := "m1", name := "Alice (Manager)", location := none, isOnline := true,
    isManager := false, joinedAt := 10, lastSeen := 10 }

/-- A plain rider. -/
def bobP : Participant :=
  { id := "p2", name := "Bob", location := none, isOnline := true,
    isManager := false, joinedAt := 20, lastSeen := 20 }

/-- An additional manager admitted through join-as-manager (isManager set). -/
def carolP : Participant :=
  { id := "m2", name := "Carol", location := none, isOnline := true,
    isManager := true, joinedAt := 30, lastSeen := 30 }

def sampleSession : Session :=
  { id := "s1", pin := "123456", managerId := "m1", managerName := "Alice",
    routeId := none, route := none,
    participants := [("m1", aliceP), ("p2", bobP), ("m2", carolP)],
    createdAt := 10, updatedAt := 10, isActive := true, endsAt := none }

def sampleRow : DbSession :=
  { id := "s1", pin := "123456", managerId := "m1", managerName := "Alice",
    routeId := none, createdAt := 10, updatedAt := 10, isActive := true, endsAt := none }

/-- A server state with one active session holding a creator manager, a rider
and an additional manager. -/
def sampleState : SMState :=
  { activeSessions := [("s1", sampleSession)]
    sessionsByPin := [("123456", "s1")]
    participantSessions := [("m1", "s1"), ("p2", "s1"), ("m2", "s1")]
    db := { sessions := [sampleRow], routes := [] } }

/-- A state whose only session lives in the database (as after a restart). -/
def restartState : SMState :=
  { activeSessions := [], sessionsByPin := [], participantSessions := []
    db := { sessions := [sampleRow], routes := [] } }

/-- A database row of an already ended session whose pin is 123456. -/
def endedRow : DbSession :=
  { id := "s0", pin := "123456", managerId := "m0", managerName := "Old",
    routeId := none, createdAt := 5, updatedAt := 6, isActive := false, endsAt := some 6 }

/-- A state whose database still holds the ended session row. -/
def endedState : SMState :=
  { activeSessions := [], sessionsByPin := [], participantSessions := []
    db := { sessions := [endedRow], routes := [] } }

/-! ### Basic lemmas about the map model -/

theorem mget_mset_self {α : Type} (m : List (String × α)) (k : String) (v : α) :
    mget (mset m k v) k = some v := by
  induction m with
  | nil => simp [mget, mset]
  | cons e rest ih =>
    by_cases h : e.1 = k
    · simp [mget, mset, h]
    · simp [mget, mset, h, ih]

theorem mget_mdel_self {α : Type} (m : List (String × α)) (k : String) :
    mget (mdel m k) k = none := by
  induction m with
  | nil => simp [mget, mdel]
  | cons e rest ih =>
    by_cases h : e.1 = k
    · simp [mget, mdel, h, ih]
    · simp [mget, mdel, h, ih]

theorem mget_mdel_none {α : Type} (m : List (String × α)) (k p : String)
    (h : mget m p = none) : mget (mdel m k) p = none := by
  induction m with
  | nil => exact h
  | cons e rest ih =>
    by_cases he : e.1 = p
    · simp [mget, he] at h
    · simp only [mget, he, if_false] at h
      by_cases hk : e.1 = k
      · simp [mdel, hk, ih h]
      · simp [mdel, hk, mget, he, ih h]

theorem mget_mdelAll_none {α : Type} (ks : List String) (m : List (String × α)) (p : String)
    (h : mget m p = none) : mget (mdelAll m ks) p = none := by
  induction ks generalizing m with
  | nil => exact h
  | cons k rest ih =>
    show mget (mdelAll (mdel m k) rest) p = none
    exact ih _ (mget_mdel_none m k p h)

theorem mget_mdelAll_of_mem {α : Type} (ks : List String) (m : List (String × α)) (p : String)
    (h : p ∈ ks) : mget (mdelAll m ks) p = none := by
  induction ks generalizing m with
  | nil => cases h
  | cons k rest ih =>
    rcases List.mem_cons.mp h with h1 | h1
    · subst h1
      show mget (mdelAll (mdel m p) rest) p = none
      exact mget_mdelAll_none rest _ p (mget_mdel_self m p)
    · exact ih (mdel m k) h1

theorem mem_mkeys_of_mget {α : Type} (m : List (String × α)) (k : String) (v : α)
    (h : mget m k = some v) : k ∈ mkeys m := by
  induction m with
  | nil => simp [mget] at h
  | cons e rest ih =>
    by_cases he : e.1 = k
    · simp [mkeys, ← he]
    · simp only [mget, he, if_false] at h
      simp [mkeys] at ih ⊢
      right
      simpa [mkeys] using ih h

/-! ### Claim C10: endSession persists before evicting memory -/

/-- Claim C10: endSession for a cached session mutates the persistence layer
before any in-memory state: if the persistence update raises, endSession
returns false and the in-memory state is unchanged (the session stays cached,
its pin mapping stays, every participant entry stays); eviction of the cached
session, the pin mapping and the participant entries happens only on the run
where the persistence write succeeded. -/
theorem endSession_persistence_gate (st : SMState) (sid : String) (now : Nat) (s : Session)
    (h : mget st.activeSessions sid = some s) :
    endSession st sid false now = (false, st) ∧
    ((endSession st sid true now).1 = true →
      mget (endSession st sid true now).2.activeSessions sid = none ∧
      mget (endSession st sid true now).2.sessionsByPin s.pin = none ∧
      ∀ p ∈ mkeys s.participants, mget (endSession st sid true now).2.participantSessions p = none) := by
  constructor
  · simp [endSession, h]
  · intro hsucc
    by_cases hdb : (dbFindById st.db.sessions sid).isSome = true
    · simp only [endSession, h, hdb, and_true, if_pos rfl, if_true]
      refine ⟨mget_mdel_self _ _, mget_mdel_self _ _, ?_⟩
      intro p hp
      exact mget_mdelAll_of_mem _ _ _ hp
    · simp [endSession, h, hdb] at hsucc

/-- Witness for endSession_persistence_gate at the sample state. -/
theorem endSession_persistence_gate_witness :
    mget sampleState.activeSessions "s1" = some sampleSession ∧
    (endSession sampleState "s1" false 99 = (false, sampleState) ∧
     ((endSession sampleState "s1" true 99).1 = true →
       mget (endSession sampleState "s1" true 99).2.activeSessions "s1" = none ∧
       mget (endSession sampleState "s1" true 99).2.sessionsByPin sampleSession.pin = none ∧
       ∀ p ∈ mkeys sampleSession.participants,
         mget (endSession sampleState "s1" true 99).2.participantSessions p = none)) :=
  ⟨rfl, endSession_persistence_gate sampleState "s1" 99 sampleSession rfl⟩

/-! ### Claim C7: validateManager never consults managerId -/

/-- The condition the spec phrases as the session existing and still being
active: the cached copy decides when present, the database copy otherwise. -/
def sessionExistsActive (st : SMState) (sid : String) : Bool :=
  match mget st.activeSessions sid with
  | some s => s.isActive
  | none =>
    match getSessionFromDatabase st sid with
    | some s => s.isActive
    | none => false

/-- Claim C7: validateManager is independent of its managerId argument — any
two managerId values give the same result — and it succeeds exactly when the
session exists (in memory, or else in the database) and is active. -/
theorem validateManager_ignores_managerId (st : SMState) (sid m1 m2 : String) :
    validateManager st sid m1 = validateManager st sid m2 ∧
    ((validateManager st sid m1).success = true ↔ sessionExistsActive st sid = true) := by
  refine ⟨rfl, ?_⟩
  unfold validateManager sessionExistsActive
  cases hm : mget st.activeSessions sid with
  | some s => cases hb : s.isActive <;> simp [hb]
  | none =>
    cases hdb : getSessionFromDatabase st sid with
    | some s => cases hb : s.isActive <;> simp [hb]
    | none => simp

/-! ### Claim C8: message:send stamps and broadcasts regardless of type -/

/-- Claim C8: for every message:send event the server stamps the id from its
own clock and random source and the timestamp from its clock, keeps the given
content, and relays to the connections of the session room other than the
sender; the delivery set for a direct message is exactly the delivery set of
the corresponding broadcast message — it is not restricted to the toId
recipient. -/
theorem messageSend_direct_same_delivery (sid fid : String) (toId : Option String)
    (content : String) (now : Nat) (rand : String) (room : List String) (sender : String) :
    (handleMessageSend sid fid toId content MessageType.direct now rand room sender).2 =
      (handleMessageSend sid fid toId content MessageType.broadcast now rand room sender).2 ∧
    (handleMessageSend sid fid toId content MessageType.direct now rand room sender).2 =
      socketTo room sender ∧
    (handleMessageSend sid fid toId content MessageType.direct now rand room sender).1.content =
      content ∧
    (handleMessageSend sid fid toId content MessageType.direct now rand room sender).1.timestamp =
      now ∧
    (handleMessageSend sid fid toId content MessageType.direct now rand room sender).1.id =
      "msg_" ++ toString now ++ "_" ++ rand ∧
    (handleMessageSend sid fid toId content MessageType.direct now rand room sender).1.toId =
      toId :=
  ⟨rfl, rfl, rfl, rfl, rfl, rfl⟩

/-! ### Claim C1: createSession with an existing active session -/

theorem getAnyActiveSession_db_eq (st : SMState) :
    (getAnyActiveSession st).2.db = st.db ∧
    (getAnyActiveSession st).2.participantSessions = st.participantSessions := by
  unfold getAnyActiveSession
  cases getAllActiveSessions st with
  | cons a l => exact ⟨rfl, rfl⟩
  | nil =>
    cases dbFindFirstActive st.db.sessions with
    | some row => exact ⟨rfl, rfl⟩
    | none => exact ⟨rfl, rfl⟩

/-- Claim C1 (amended): when an active session already exists system-wide,
createSession creates no new session (the database is untouched) and returns
that existing session, but the requester is NOT attached to it as a
participant of any kind — the participant-to-session registry is unchanged;
becoming an additional manager happens only through the separate
join-as-manager operation. -/
theorem createSession_returns_existing_without_attach (st st1 : SMState) (s : Session)
    (managerName : String) (routeId : Option String) (sid mid : String) (draw now : Nat)
    (h : getAnyActiveSession st = (some s, st1)) :
    createSession st managerName routeId sid mid draw now = Except.ok (s, st1) ∧
    st1.db = st.db ∧
    st1.participantSessions = st.participantSessions := by
  have h2 : (getAnyActiveSession st).2 = st1 := congrArg Prod.snd h
  refine ⟨?_, ?_, ?_⟩
  · simp [createSession, h]
  · rw [← h2]; exact (getAnyActiveSession_db_eq st).1
  · rw [← h2]; exact (getAnyActiveSession_db_eq st).2

/-- Witness for createSession_returns_existing_without_attach: a second
manager calls createSession against the sample state. -/
theorem createSession_returns_existing_without_attach_witness :
    getAnyActiveSession sampleState = (some sampleSession, sampleState) ∧
    (createSession sampleState "Bob" none "sX" "mX" 0 99 = Except.ok (sampleSession, sampleState) ∧
     sampleState.db = sampleState.db ∧
     sampleState.participantSessions = sampleState.participantSessions) :=
  ⟨rfl, createSession_returns_existing_without_attach sampleState sampleState sampleSession
    "Bob" none "sX" "mX" 0 99 rfl⟩

/-- Counterexample to claim C1 as stated: with an active session in place, a
createSession call by a new manager returns the existing session and leaves
the whole state untouched — no Participant for the caller is inserted
anywhere (the caller-side ids "sX"/"mX" appear in no mapping, and the
session still holds exactly its three prior participants). -/
theorem createSession_no_manager_inserted_at_sample :
    createSession sampleState "Bob" none "sX" "mX" 0 99 = Except.ok (sampleSession, sampleState) ∧
    mget sampleState.participantSessions "mX" = none ∧
    mkeys sampleSession.participants = ["m1", "p2", "m2"] :=
  ⟨rfl, rfl, rfl⟩

/-! ### Claim C3: which departure ends the session -/

/-- Claim C3 (amended): leaveSession auto-ends the session exactly when the
departing participantId equals session.managerId (the creator recorded on the
session), regardless of how many other manager-flagged participants remain;
when the departing participant is anyone else — manager-flagged or not — the
session stays cached with only that participant removed. -/
theorem leaveSession_ends_iff_creator (st : SMState) (pid sid : String) (s : Session)
    (part : Participant) (dbOk : Bool) (now : Nat)
    (h1 : mget st.participantSessions pid = some sid)
    (h2 : mget st.activeSessions sid = some s)
    (h3 : mget s.participants pid = some part) :
    (leaveSession st pid dbOk now).1 =
      { success := true, sessionId := some sid, wasManager := some (decide (pid = s.managerId)) } ∧
    (¬ pid = s.managerId →
      (leaveSession st pid dbOk now).2 =
        { st with
          activeSessions :=
            mset st.activeSessions sid { s with participants := mdel s.participants pid }
          participantSessions := mdel st.participantSessions pid }) ∧
    (pid = s.managerId → dbOk = true → (dbFindById st.db.sessions sid).isSome = true →
      mget (leaveSession st pid dbOk now).2.activeSessions sid = none) := by
  refine ⟨?_, ?_, ?_⟩
  · simp [leaveSession, h1, h2, h3]
  · intro hm
    simp [leaveSession, h1, h2, h3, hm]
  · intro hm hdbOk hrow
    subst hdbOk
    have hd : decide (pid = s.managerId) = true := by simp [hm]
    simp [leaveSession, h1, h2, h3, hd, endSession, mget_mset_self, hrow, mget_mdel_self]

/-- Witness for leaveSession_ends_iff_creator: the rider p2 leaves the sample
session; the session survives with p2 removed. -/
theorem leaveSession_ends_iff_creator_witness :
    (mget sampleState.participantSessions "p2" = some "s1" ∧
     mget sampleState.activeSessions "s1" = some sampleSession ∧
     mget sampleSession.participants "p2" = some bobP) ∧
    ((leaveSession sampleState "p2" true 99).1 =
      { success := true, sessionId := some "s1",
        wasManager := some (decide (("p2" : String) = sampleSession.managerId)) } ∧
     (¬ ("p2" : String) = sampleSession.managerId →
       (leaveSession sampleState "p2" true 99).2 =
         { sampleState with
           activeSessions :=
             mset sampleState.activeSessions "s1"
               { sampleSession with participants := mdel sampleSession.participants "p2" }
           participantSessions := mdel sampleState.participantSessions "p2" }) ∧
     (("p2" : String) = sampleSession.managerId → true = true →
       (dbFindById sampleState.db.sessions "s1").isSome = true →
       mget (leaveSession sampleState "p2" true 99).2.activeSessions "s1" = none)) :=
  ⟨⟨rfl, rfl, rfl⟩,
   leaveSession_ends_iff_creator sampleState "p2" "s1" sampleSession bobP true 99 rfl rfl rfl⟩

/-- Counterexample to claim C3 as stated: the creator m1 leaves while the
manager-flagged participant m2 is still in the session, yet the session is
ended (evicted from the active cache) rather than staying active. -/
theorem leaveSession_ends_despite_remaining_manager :
    mget sampleSession.participants "m2" = some carolP ∧
    carolP.isManager = true ∧
    ¬ ("m2" : String) = "m1" ∧
    sampleSession.managerId = "m1" ∧
    (leaveSession sampleState "m1" true 99).1.wasManager = some true ∧
    (leaveSession sampleState "m1" true 99).2.activeSessions = [] :=
  ⟨rfl, rfl, by decide, rfl, rfl, rfl⟩

/-! ### Claim C4: the manager-participant invariant -/

/-- Claim C4 (amended): a session freshly created by createSession satisfies
the invariant — it is active and its managerId is a key of its participant
mapping, holding the manager participant — but the invariant does NOT extend
to sessions restored into memory by initialize or getAnyActiveSession, which
are always rebuilt with an empty participant mapping. -/
theorem createSession_invariant_restore_empty (st : SMState) (managerName sid mid : String)
    (draw now : Nat)
    (hnone : getAnyActiveSession st = (none, st))
    (hfresh : dbHasConflict st.db.sessions sid (generatePin draw) = false) :
    (∃ s st1, createSession st managerName none sid mid draw now = Except.ok (s, st1) ∧
      s.isActive = true ∧ s.managerId = mid ∧
      mget s.participants mid =
        some { id := mid, name := managerName ++ " (Manager)", location := none,
               isOnline := true, isManager := false, joinedAt := now, lastSeen := now } ∧
      mget st1.activeSessions s.id = some s) ∧
    (∀ db row, (mapPrismaSessionToSession db row).participants = []) := by
  constructor
  · simp only [createSession, hnone, createSessionFresh, dbCreateSession, hfresh,
      Bool.false_eq_true, if_false]
    refine ⟨_, _, rfl, rfl, rfl, ?_, ?_⟩
    · simp [mget, mset]
    · exact mget_mset_self _ _ _
  · intro db row
    rfl

/-- Witness for createSession_invariant_restore_empty: the very first session
of a fresh deployment. -/
theorem createSession_invariant_restore_empty_witness :
    (getAnyActiveSession initialState = (none, initialState) ∧
     dbHasConflict initialState.db.sessions "s1" (generatePin 0) = false) ∧
    ((∃ s st1, createSession initialState "Alice" none "s1" "m1" 0 10 = Except.ok (s, st1) ∧
       s.isActive = true ∧ s.managerId = "m1" ∧
       mget s.participants "m1" =
         some { id := "m1", name := "Alice" ++ " (Manager)", location := none,
                isOnline := true, isManager := false, joinedAt := 10, lastSeen := 10 } ∧
       mget st1.activeSessions s.id = some s) ∧
     (∀ db row, (mapPrismaSessionToSession db row).participants = [])) :=
  ⟨⟨rfl, rfl⟩, createSession_invariant_restore_empty initialState "Alice" "s1" "m1" 0 10 rfl rfl⟩

/-- Counterexample to claim C4 as stated: after getAnyActiveSession restores
the sample session from the database (as after a server restart), the
restored session is cached with isActive = true, an empty participant
mapping, and its managerId absent from that mapping. -/
theorem restored_active_session_has_no_participants :
    (getAnyActiveSession restartState).2.activeSessions.map
        (fun e => (e.1, e.2.isActive, e.2.participants)) = [("s1", true, [])] ∧
    ((getAnyActiveSession restartState).1.map fun s => mget s.participants s.managerId) =
      some none :=
  ⟨rfl, rfl⟩

/-! ### Claim C5 counterexample: pin reuse is rejected, not retried -/

/-- Counterexample to claim C5 as stated: generatePin is a single draw (no
retry loop), and a pin of an ended session cannot be reassigned while the
ended row is still stored — the global unique pin index makes createSession
throw instead of retrying, even though no ACTIVE session holds that pin. -/
theorem endedPin_reuse_rejected :
    generatePin 23456 = "123456" ∧
    endedRow.pin = "123456" ∧
    endedRow.isActive = false ∧
    (∀ r, r ∈ endedState.db.sessions → r.isActive = false) ∧
    createSession endedState "Alice" none "s9" "m9" 23456 50 =
      Except.error "Unique constraint failed" :=
  ⟨rfl, rfl, rfl, by decide, rfl⟩

/-! ### Claim C2: joinAsManager inserts a manager-flagged participant -/

/-- The participant record joinAsManager builds for the joining manager. -/
def managerJoinP (mid managerName : String) (now : Nat) : Participant :=
  { id := mid, name := managerName, location := none, isOnline := true,
    isManager := true, joinedAt := now, lastSeen := now }

/-- Claim C2: when the pin maps to an active session, joinAsManager inserts a
Participant with isManager = true whose id is the caller-supplied managerId
into that session participant mapping (the updated session is stored back
under the same key) and replies success carrying the session and that
participantId. -/
theorem joinAsManager_inserts_flagged_manager (st : SMState) (pin managerName mid sid : String)
    (now : Nat) (s : Session)
    (h1 : mget st.sessionsByPin pin = some sid)
    (h2 : mget st.activeSessions sid = some s)
    (h3 : s.isActive = true) :
    (joinAsManager st pin managerName mid now).1.success = true ∧
    (joinAsManager st pin managerName mid now).1.participantId = some mid ∧
    (joinAsManager st pin managerName mid now).1.session =
      some { s with participants := mset s.participants mid (managerJoinP mid managerName now) } ∧
    mget (joinAsManager st pin managerName mid now).2.activeSessions sid =
      some { s with participants := mset s.participants mid (managerJoinP mid managerName now) } ∧
    mget (mset s.participants mid (managerJoinP mid managerName now)) mid =
      some (managerJoinP mid managerName now) := by
  have h3f : s.isActive = false ↔ False := by simp [h3]
  refine ⟨?_, ?_, ?_, ?_, mget_mset_self _ _ _⟩ <;>
    simp [joinAsManager, h1, h2, h3f, mget_mset_self, managerJoinP]

/-- Witness for joinAsManager_inserts_flagged_manager: Dana joins the sample
session as an additional manager with her own id m9. -/
theorem joinAsManager_inserts_flagged_manager_witness :
    (mget sampleState.sessionsByPin "123456" = some "s1" ∧
     mget sampleState.activeSessions "s1" = some sampleSession ∧
     sampleSession.isActive = true) ∧
    ((joinAsManager sampleState "123456" "Dana" "m9" 50).1.success = true ∧
     (joinAsManager sampleState "123456" "Dana" "m9" 50).1.participantId = some "m9" ∧
     (joinAsManager sampleState "123456" "Dana" "m9" 50).1.session =
       some { sampleSession with
              participants := mset sampleSession.participants "m9" (managerJoinP "m9" "Dana" 50) } ∧
     mget (joinAsManager sampleState "123456" "Dana" "m9" 50).2.activeSessions "s1" =
       some { sampleSession with
              participants := mset sampleSession.participants "m9" (managerJoinP "m9" "Dana" 50) } ∧
     mget (mset sampleSession.participants "m9" (managerJoinP "m9" "Dana" 50)) "m9" =
       some (managerJoinP "m9" "Dana" 50)) :=
  ⟨⟨rfl, rfl, rfl⟩,
   joinAsManager_inserts_flagged_manager sampleState "123456" "Dana" "m9" "s1" 50 sampleSession
     rfl rfl rfl⟩

/-! ### Claim C6: rejoin succeeds while active, fails after the end -/

/-- Claim C6: for a (sessionId, participantId) pair registered in the store
of an active session, session:rejoin replies success with a snapshot holding
that participant (marked online); once the session has been ended, the same
pair gets a recovery failure. -/
theorem rejoin_active_then_ended (st : SMState) (sid pid : String) (s : Session)
    (part : Participant)
    (h1 : mget st.participantSessions pid = some sid)
    (h2 : mget st.activeSessions sid = some s)
    (h3 : s.isActive = true)
    (h4 : s.id = sid)
    (h5 : mget s.participants pid = some part) :
    ((handleRejoin st sid pid).1.success = true ∧
     (handleRejoin st sid pid).1.session =
       some { s with participants := mset s.participants pid { part with isOnline := true } } ∧
     mget (mset s.participants pid { part with isOnline := true }) pid =
       some { part with isOnline := true }) ∧
    (∀ dbOk now, (endSession st sid dbOk now).1 = true →
      (handleRejoin (endSession st sid dbOk now).2 sid pid).1 =
        { success := false, session := none,
          error := some "Session not found or access denied" }) := by
  constructor
  · refine ⟨?_, ?_, mget_mset_self _ _ _⟩ <;> simp [handleRejoin, h1, h2, h3, h4, h5]
  · intro dbOk now hsucc
    by_cases hc : dbOk = true ∧ (dbFindById st.db.sessions sid).isSome = true
    · have hps : mget (endSession st sid dbOk now).2.participantSessions pid = none := by
        simp only [endSession, h2, hc, if_pos rfl, if_true]
        exact mget_mdelAll_of_mem _ _ _ (mem_mkeys_of_mget _ _ _ h5)
      simp [handleRejoin, hps]
    · simp [endSession, h2, hc] at hsucc

/-- Witness for rejoin_active_then_ended: the rider p2 recovers into the
sample session, and fails to recover after the session ends. -/
theorem rejoin_active_then_ended_witness :
    (mget sampleState.participantSessions "p2" = some "s1" ∧
     mget sampleState.activeSessions "s1" = some sampleSession ∧
     sampleSession.isActive = true ∧
     sampleSession.id = "s1" ∧
     mget sampleSession.participants "p2" = some bobP) ∧
    (((handleRejoin sampleState "s1" "p2").1.success = true ∧
      (handleRejoin sampleState "s1" "p2").1.session =
        some { sampleSession with
          participants := mset sampleSession.participants "p2" { bobP with isOnline := true } } ∧
      mget (mset sampleSession.participants "p2" { bobP with isOnline := true }) "p2" =
        some { bobP with isOnline := true }) ∧
     (∀ dbOk now, (endSession sampleState "s1" dbOk now).1 = true →
       (handleRejoin (endSession sampleState "s1" dbOk now).2 "s1" "p2").1 =
         { success := false, session := none,
           error := some "Session not found or access denied" })) :=
  ⟨⟨rfl, rfl, rfl, rfl, rfl⟩,
   rejoin_active_then_ended sampleState "s1" "p2" sampleSession bobP rfl rfl rfl rfl rfl⟩

/-! ### Claim C9: HTTP location ingress versus socket location ingress -/

/-- The state after the sample rider p2 reports position (7, 8) at time 100. -/
def movedState : SMState :=
  (updateParticipantLocation sampleState "p2" 7 8 100).2

/-- Claim C9 (amended): a valid POST /api/location performs exactly the same
updateParticipantLocation mutation as the location:update socket event and
emits a location:updated payload identical to the socket one, but the two
delivery sets differ on the sender: the HTTP path (io.to) reaches every
connection of the session room while the socket path (socket.to) excludes the
reporting connection; restricted to connections other than the sender the two
ingress paths are equivalent. -/
theorem apiLocation_vs_socketLocation (st st2 : SMState) (bodySid pid : String)
    (loc : Location) (ts : Option Nat) (now : Nat) (room : List String) (sender sid : String)
    (hsid : ¬ bodySid = "") (hpid : ¬ pid = "")
    (hlat : ¬ loc.lat = 0) (hlng : ¬ loc.lng = 0)
    (hupd : updateParticipantLocation st pid loc.lat loc.lng now =
      ({ success := true, sessionId := some sid }, st2)) :
    handleApiLocation st
        { sessionId := bodySid, participantId := pid, location := some loc, timestamp := ts }
        now room =
      ({ status := 200, success := true }, st2,
        room.map fun c => (c, { sessionId := sid, participantId := pid, location := loc })) ∧
    handleLocationUpdateSocket st pid loc now room sender =
      (st2, (socketTo room sender).map fun c =>
        (c, { sessionId := sid, participantId := pid, location := loc })) := by
  constructor
  · simp [handleApiLocation, hsid, hpid, hlat, hlng, hupd]
  · simp [handleLocationUpdateSocket, hupd]

/-- Witness for apiLocation_vs_socketLocation at the sample state. -/
theorem apiLocation_vs_socketLocation_witness :
    (¬ ("s1" : String) = "" ∧ ¬ ("p2" : String) = "" ∧
     ¬ (7 : Int) = 0 ∧ ¬ (8 : Int) = 0 ∧
     updateParticipantLocation sampleState "p2" 7 8 100 =
       ({ success := true, sessionId := some "s1" }, movedState)) ∧
    (handleApiLocation sampleState
        { sessionId := "s1", participantId := "p2",
          location := some { lat := 7, lng := 8, timestamp := 100 }, timestamp := some 100 }
        100 ["cA", "cB"] =
      ({ status := 200, success := true }, movedState,
        ["cA", "cB"].map fun c =>
          (c, { sessionId := "s1", participantId := "p2",
                location := { lat := 7, lng := 8, timestamp := 100 } })) ∧
     handleLocationUpdateSocket sampleState "p2" { lat := 7, lng := 8, timestamp := 100 }
        100 ["cA", "cB"] "cA" =
      (movedState, (socketTo ["cA", "cB"] "cA").map fun c =>
        (c, { sessionId := "s1", participantId := "p2",
              location := { lat := 7, lng := 8, timestamp := 100 } }))) :=
  ⟨⟨by decide, by decide, by decide, by decide, rfl⟩,
   apiLocation_vs_socketLocation sampleState movedState "s1" "p2"
     { lat := 7, lng := 8, timestamp := 100 } (some 100) 100 ["cA", "cB"] "cA" "s1"
     (by decide) (by decide) (by decide) (by decide) rfl⟩

/-- Counterexample to claim C9 as stated: with the reporting rider connected
as cA in a two-connection room, the HTTP ingress delivers location:updated to
both cA and cB while the socket ingress delivers only to cB — the broadcasts
are not the same even though the store mutation is identical. -/
theorem apiLocation_broadcast_differs_from_socket :
    (handleApiLocation sampleState
        { sessionId := "s1", participantId := "p2",
          location := some { lat := 7, lng := 8, timestamp := 100 }, timestamp := some 100 }
        100 ["cA", "cB"]).2.2.map Prod.fst = ["cA", "cB"] ∧
    (handleLocationUpdateSocket sampleState "p2" { lat := 7, lng := 8, timestamp := 100 }
        100 ["cA", "cB"] "cA").2.map Prod.fst = ["cB"] ∧
    ¬ (["cA", "cB"] : List String) = ["cB"] ∧
    (handleApiLocation sampleState
        { sessionId := "s1", participantId := "p2",
          location := some { lat := 7, lng := 8, timestamp := 100 }, timestamp := some 100 }
        100 ["cA", "cB"]).2.1 =
      (handleLocationUpdateSocket sampleState "p2" { lat := 7, lng := 8, timestamp := 100 }
        100 ["cA", "cB"] "cA").1 :=
  ⟨rfl, rfl, by decide, rfl⟩

/-! ### Claim C5: single-active-session reachability invariant -/

/-- Keys of active sessions in an association list. -/
def activeKeys (l : List (String × Session)) : List String :=
  (l.filter fun e => e.2.isActive).map Prod.fst

/-- Ids of active rows of a sessions table. -/
def activeRowIds (l : List DbSession) : List String :=
  (l.filter fun r => r.isActive).map DbSession.id

theorem memActiveIds_eq (st : SMState) : memActiveIds st = activeKeys st.activeSessions := rfl

theorem dbActiveIds_eq (st : SMState) : dbActiveIds st = activeRowIds st.db.sessions := rfl

theorem mem_activeKeys {l : List (String × Session)} {x : String} :
    x ∈ activeKeys l ↔ ∃ e, e ∈ l ∧ e.2.isActive = true ∧ e.1 = x := by
  unfold activeKeys
  constructor
  · intro h
    rcases List.mem_map.mp h with ⟨e, he, hx⟩
    rcases List.mem_filter.mp he with ⟨h1, h2⟩
    exact ⟨e, h1, h2, hx⟩
  · rintro ⟨e, h1, h2, hx⟩
    exact List.mem_map.mpr ⟨e, List.mem_filter.mpr ⟨h1, h2⟩, hx⟩

theorem mem_activeRowIds {l : List DbSession} {x : String} :
    x ∈ activeRowIds l ↔ ∃ r, r ∈ l ∧ r.isActive = true ∧ r.id = x := by
  unfold activeRowIds
  constructor
  · intro h
    rcases List.mem_map.mp h with ⟨r, hr, hx⟩
    rcases List.mem_filter.mp hr with ⟨h1, h2⟩
    exact ⟨r, h1, h2, hx⟩
  · rintro ⟨r, h1, h2, hx⟩
    exact List.mem_map.mpr ⟨r, List.mem_filter.mpr ⟨h1, h2⟩, hx⟩

theorem mem_mset_elem {α : Type} {e : String × α} {m : List (String × α)} {k : String} {v : α}
    (h : e ∈ mset m k v) : e ∈ m ∨ e = (k, v) := by
  induction m with
  | nil => simp [mset] at h; right; exact h
  | cons a rest ih =>
    by_cases ha : a.1 = k
    · simp only [mset, ha, if_pos rfl, if_true] at h
      rcases List.mem_cons.mp h with h1 | h1
      · right; exact h1
      · left; exact List.mem_cons.mpr (Or.inr h1)
    · simp only [mset, ha, if_false] at h
      rcases List.mem_cons.mp h with h1 | h1
      · left; exact List.mem_cons.mpr (Or.inl h1)
      · rcases ih h1 with h2 | h2
        · left; exact List.mem_cons.mpr (Or.inr h2)
        · right; exact h2

theorem mem_mdel_elem {α : Type} {e : String × α} {m : List (String × α)} {k : String}
    (h : e ∈ mdel m k) : e ∈ m := by
  induction m with
  | nil => simp [mdel] at h
  | cons a rest ih =>
    by_cases ha : a.1 = k
    · simp only [mdel, ha, if_pos rfl, if_true] at h
      exact List.mem_cons.mpr (Or.inr (ih h))
    · simp only [mdel, ha, if_false] at h
      rcases List.mem_cons.mp h with h1 | h1
      · exact List.mem_cons.mpr (Or.inl h1)
      · exact List.mem_cons.mpr (Or.inr (ih h1))

theorem mem_dbSweep_elem {r : DbSession} {rows : List DbSession} {now : Nat}
    (h : r ∈ dbSweep rows now) : r ∈ rows := by
  induction rows with
  | nil => simp [dbSweep] at h
  | cons a rest ih =>
    by_cases ha : a.isActive = false ∨ a.createdAt < now - 86400000
    · simp only [dbSweep, if_pos ha] at h
      exact List.mem_cons.mpr (Or.inr (ih h))
    · simp only [dbSweep, if_neg ha] at h
      rcases List.mem_cons.mp h with h1 | h1
      · exact List.mem_cons.mpr (Or.inl h1)
      · exact List.mem_cons.mpr (Or.inr (ih h1))

theorem activeKeys_mset_cases {m : List (String × Session)} {k : String} {v : Session}
    {x : String} (h : x ∈ activeKeys (mset m k v)) :
    x ∈ activeKeys m ∨ (x = k ∧ v.isActive = true) := by
  rcases mem_activeKeys.mp h with ⟨e, he, hact, hx⟩
  rcases mem_mset_elem he with h1 | h1
  · left; exact mem_activeKeys.mpr ⟨e, h1, hact, hx⟩
  · right
    subst h1
    exact ⟨hx.symm, hact⟩

theorem activeKeys_mdel_sub {m : List (String × Session)} {k : String} {x : String}
    (h : x ∈ activeKeys (mdel m k)) : x ∈ activeKeys m := by
  rcases mem_activeKeys.mp h with ⟨e, he, hact, hx⟩
  exact mem_activeKeys.mpr ⟨e, mem_mdel_elem he, hact, hx⟩

theorem mget_active_mem {m : List (String × Session)} {k : String} {w : Session}
    (h : mget m k = some w) (ha : w.isActive = true) : k ∈ activeKeys m := by
  induction m with
  | nil => simp [mget] at h
  | cons e rest ih =>
    by_cases he : e.1 = k
    · simp only [mget, he, if_pos rfl, if_true] at h
      refine mem_activeKeys.mpr ⟨e, List.mem_cons_self _ _, ?_, he⟩
      rw [Option.some_inj.mp h]
      exact ha
    · simp only [mget, he, if_false] at h
      rcases mem_activeKeys.mp (ih h) with ⟨e1, he1, ha1, hx1⟩
      exact mem_activeKeys.mpr ⟨e1, List.mem_cons.mpr (Or.inr he1), ha1, hx1⟩

theorem activeRowIds_markInactive_sub {rows : List DbSession} {sid : String} {now : Nat}
    {x : String}
    (h : x ∈ activeRowIds (rows.map fun r =>
      if r.id = sid then { r with isActive := false, endsAt := some now, updatedAt := now }
      else r)) :
    x ∈ activeRowIds rows := by
  rcases mem_activeRowIds.mp h with ⟨r1, hr1, hact, hx⟩
  rcases List.mem_map.mp hr1 with ⟨r, hr, hmap⟩
  by_cases hid : r.id = sid
  · rw [← hmap] at hact
    simp [hid] at hact
  · rw [← hmap] at hact hx
    simp only [hid, if_false] at hact hx
    exact mem_activeRowIds.mpr ⟨r, hr, hact, hx⟩

theorem activeRowIds_setRoute_sub {rows : List DbSession} {sid rid : String} {now : Nat}
    {x : String}
    (h : x ∈ activeRowIds (rows.map fun r =>
      if r.id = sid then { r with routeId := some rid, updatedAt := now } else r)) :
    x ∈ activeRowIds rows := by
  rcases mem_activeRowIds.mp h with ⟨r1, hr1, hact, hx⟩
  rcases List.mem_map.mp hr1 with ⟨r, hr, hmap⟩
  by_cases hid : r.id = sid
  · rw [← hmap] at hact hx
    simp only [hid, if_pos rfl, if_true] at hact hx
    exact mem_activeRowIds.mpr ⟨r, hr, hact, hid.trans hx⟩
  · rw [← hmap] at hact hx
    simp only [hid, if_false] at hact hx
    exact mem_activeRowIds.mpr ⟨r, hr, hact, hx⟩

theorem activeRowIds_sweep_sub {rows : List DbSession} {now : Nat} {x : String}
    (h : x ∈ activeRowIds (dbSweep rows now)) : x ∈ activeRowIds rows := by
  rcases mem_activeRowIds.mp h with ⟨r, hr, hact, hx⟩
  exact mem_activeRowIds.mpr ⟨r, mem_dbSweep_elem hr, hact, hx⟩

theorem activeRowIds_append_cases {rows : List DbSession} {row : DbSession} {x : String}
    (h : x ∈ activeRowIds (rows ++ [row])) :
    x ∈ activeRowIds rows ∨ (x = row.id ∧ row.isActive = true) := by
  rcases mem_activeRowIds.mp h with ⟨r, hr, hact, hx⟩
  rcases List.mem_append.mp hr with h1 | h1
  · left; exact mem_activeRowIds.mpr ⟨r, h1, hact, hx⟩
  · right
    rcases List.mem_singleton.mp h1 with rfl
    exact ⟨hx.symm, hact⟩

theorem dbFindFirstActive_none {rows : List DbSession}
    (h : dbFindFirstActive rows = none) : ∀ r ∈ rows, r.isActive = false := by
  induction rows with
  | nil => intro r hr; cases hr
  | cons a rest ih =>
    intro r hr
    cases hrest : dbFindFirstActive rest with
    | some b => simp [dbFindFirstActive, hrest] at h; split at h <;> simp at h
    | none =>
      simp only [dbFindFirstActive, hrest] at h
      rcases List.mem_cons.mp hr with h1 | h1
      · subst h1
        by_cases ha : r.isActive = true
        · rw [if_pos ha] at h; cases h
        · simpa using ha
      · exact ih hrest r h1

theorem dbFindFirstActive_mem {rows : List DbSession} {b : DbSession}
    (h : dbFindFirstActive rows = some b) : b ∈ rows ∧ b.isActive = true := by
  induction rows with
  | nil => cases h
  | cons a rest ih =>
    cases hrest : dbFindFirstActive rest with
    | none =>
      simp only [dbFindFirstActive, hrest] at h
      by_cases ha : a.isActive = true
      · rw [if_pos ha] at h
        rcases Option.some_inj.mp h with rfl
        exact ⟨List.mem_cons_self _ _, ha⟩
      · rw [if_neg ha] at h; cases h
    | some b0 =>
      simp only [dbFindFirstActive, hrest] at h
      split at h
      · rcases Option.some_inj.mp h with rfl
        rename_i hcond
        exact ⟨List.mem_cons_self _ _, hcond.1⟩
      · rcases Option.some_inj.mp h with rfl
        rcases ih hrest with ⟨h1, h2⟩
        exact ⟨List.mem_cons.mpr (Or.inr h1), h2⟩

theorem getAllActive_nil {st : SMState} (h : getAllActiveSessions st = []) {x : String}
    (hx : x ∈ activeKeys st.activeSessions) : False := by
  rcases mem_activeKeys.mp hx with ⟨e, he, hact, _⟩
  have hmem : e.2 ∈ getAllActiveSessions st :=
    List.mem_filter.mpr ⟨List.mem_map_of_mem Prod.snd he, hact⟩
  rw [h] at hmem
  cases hmem

theorem singleActive_of_sub {st st' : SMState}
    (hsub : ∀ x ∈ activeIds st', x ∈ activeIds st) (h : SingleActive st) :
    SingleActive st' :=
  fun i hi j hj => h i (hsub i hi) j (hsub j hj)

theorem singleActive_of_all_eq {st' : SMState} {c : String}
    (h : ∀ x ∈ activeIds st', x = c) : SingleActive st' :=
  fun i hi j hj => (h i hi).trans (h j hj).symm

theorem mem_activeIds {st : SMState} {x : String} :
    x ∈ activeIds st ↔ x ∈ activeKeys st.activeSessions ∨ x ∈ activeRowIds st.db.sessions :=
  List.mem_append

theorem activeKeys_mset_sub {m : List (String × Session)} {k : String} {s v : Session}
    (h2 : mget m k = some s) (hact : v.isActive = s.isActive) :
    ∀ x ∈ activeKeys (mset m k v), x ∈ activeKeys m := by
  intro x hx
  rcases activeKeys_mset_cases hx with h | ⟨rfl, ha⟩
  · exact h
  · exact mget_active_mem h2 (hact.symm.trans ha)

theorem joinSession_sub (st : SMState) (pin name pid : String) (now : Nat) :
    ∀ x ∈ activeIds (joinSession st pin name pid now).2, x ∈ activeIds st := by
  cases h1 : mget st.sessionsByPin pin with
  | none => simp only [joinSession, h1]; intro x hx; exact hx
  | some sid =>
    cases h2 : mget st.activeSessions sid with
    | none => simp only [joinSession, h1, h2]; intro x hx; exact hx
    | some s =>
      by_cases h3 : s.isActive = false
      · simp only [joinSession, h1, h2, if_pos h3]; intro x hx; exact hx
      · simp only [joinSession, h1, h2, if_neg h3]
        intro x hx
        rcases mem_activeIds.mp hx with hm | hd
        · exact mem_activeIds.mpr (Or.inl (activeKeys_mset_sub h2 (by rfl) x hm))
        · exact mem_activeIds.mpr (Or.inr hd)

theorem joinAsManager_sub (st : SMState) (pin mn mid : String) (now : Nat) :
    ∀ x ∈ activeIds (joinAsManager st pin mn mid now).2, x ∈ activeIds st := by
  cases h1 : mget st.sessionsByPin pin with
  | none => simp only [joinAsManager, h1]; intro x hx; exact hx
  | some sid =>
    cases h2 : mget st.activeSessions sid with
    | none => simp only [joinAsManager, h1, h2]; intro x hx; exact hx
    | some s =>
      by_cases h3 : s.isActive = false
      · simp only [joinAsManager, h1, h2, if_pos h3]; intro x hx; exact hx
      · simp only [joinAsManager, h1, h2, if_neg h3]
        intro x hx
        rcases mem_activeIds.mp hx with hm | hd
        · exact mem_activeIds.mpr (Or.inl (activeKeys_mset_sub h2 (by rfl) x hm))
        · exact mem_activeIds.mpr (Or.inr hd)

theorem updateLoc_sub (st : SMState) (pid : String) (lat lng : Int) (now : Nat) :
    ∀ x ∈ activeIds (updateParticipantLocation st pid lat lng now).2, x ∈ activeIds st := by
  cases h1 : mget st.participantSessions pid with
  | none => simp only [updateParticipantLocation, h1]; intro x hx; exact hx
  | some sid =>
    cases h2 : mget st.activeSessions sid with
    | none => simp only [updateParticipantLocation, h1, h2]; intro x hx; exact hx
    | some s =>
      by_cases h3 : s.isActive = false
      · simp only [updateParticipantLocation, h1, h2, if_pos h3]; intro x hx; exact hx
      · cases h4 : mget s.participants pid with
        | none =>
          simp only [updateParticipantLocation, h1, h2, if_neg h3, h4]; intro x hx; exact hx
        | some part =>
          simp only [updateParticipantLocation, h1, h2, if_neg h3, h4]
          intro x hx
          rcases mem_activeIds.mp hx with hm | hd
          · exact mem_activeIds.mpr (Or.inl (activeKeys_mset_sub h2 (by rfl) x hm))
          · exact mem_activeIds.mpr (Or.inr hd)

theorem rejoin_sub (st : SMState) (sid pid : String) :
    ∀ x ∈ activeIds (handleRejoin st sid pid).2, x ∈ activeIds st := by
  cases h1 : mget st.participantSessions pid with
  | none => simp only [handleRejoin, h1]; intro x hx; exact hx
  | some sid0 =>
    cases h2 : mget st.activeSessions sid0 with
    | none => simp only [handleRejoin, h1, h2]; intro x hx; exact hx
    | some s =>
      by_cases h3 : s.isActive = true ∧ s.id = sid
      · cases h4 : mget s.participants pid with
        | none => simp only [handleRejoin, h1, h2, if_pos h3, h4]; intro x hx; exact hx
        | some part =>
          simp only [handleRejoin, h1, h2, if_pos h3, h4]
          intro x hx
          rcases mem_activeIds.mp hx with hm | hd
          · exact mem_activeIds.mpr (Or.inl (activeKeys_mset_sub h2 (by rfl) x hm))
          · exact mem_activeIds.mpr (Or.inr hd)
      · simp only [handleRejoin, h1, h2, if_neg h3]; intro x hx; exact hx

theorem endSession_sub (st : SMState) (sid : String) (dbOk : Bool) (now : Nat) :
    ∀ x ∈ activeIds (endSession st sid dbOk now).2, x ∈ activeIds st := by
  cases h1 : mget st.activeSessions sid with
  | none => simp only [endSession, h1]; intro x hx; exact hx
  | some s =>
    by_cases hc : dbOk = true ∧ (dbFindById st.db.sessions sid).isSome = true
    · simp only [endSession, h1, if_pos hc]
      intro x hx
      rcases mem_activeIds.mp hx with hm | hd
      · exact mem_activeIds.mpr (Or.inl (activeKeys_mdel_sub hm))
      · exact mem_activeIds.mpr (Or.inr (activeRowIds_markInactive_sub hd))
    · simp only [endSession, h1, if_neg hc]; intro x hx; exact hx

theorem leaveSession_sub (st : SMState) (pid : String) (dbOk : Bool) (now : Nat) :
    ∀ x ∈ activeIds (leaveSession st pid dbOk now).2, x ∈ activeIds st := by
  cases h1 : mget st.participantSessions pid with
  | none => simp only [leaveSession, h1]; intro x hx; exact hx
  | some sid =>
    cases h2 : mget st.activeSessions sid with
    | none => simp only [leaveSession, h1, h2]; intro x hx; exact hx
    | some s =>
      cases h3 : mget s.participants pid with
      | none => simp only [leaveSession, h1, h2, h3]; intro x hx; exact hx
      | some part =>
        simp only [leaveSession, h1, h2, h3]
        intro x hx
        by_cases hm : decide (pid = s.managerId) = true
        · rw [if_pos hm] at hx
          have hx1 := endSession_sub _ sid dbOk now x hx
          rcases mem_activeIds.mp hx1 with hmm | hd
          · exact mem_activeIds.mpr (Or.inl (activeKeys_mset_sub h2 (by rfl) x hmm))
          · exact mem_activeIds.mpr (Or.inr hd)
        · rw [if_neg hm] at hx
          rcases mem_activeIds.mp hx with hmm | hd
          · exact mem_activeIds.mpr (Or.inl (activeKeys_mset_sub h2 (by rfl) x hmm))
          · exact mem_activeIds.mpr (Or.inr hd)

theorem getAnyActive_sub (st : SMState) :
    ∀ x ∈ activeIds (getAnyActiveSession st).2, x ∈ activeIds st := by
  cases hall : getAllActiveSessions st with
  | cons a l => simp only [getAnyActiveSession, hall]; intro x hx; exact hx
  | nil =>
    cases hdb : dbFindFirstActive st.db.sessions with
    | none => simp only [getAnyActiveSession, hall, hdb]; intro x hx; exact hx
    | some row =>
      simp only [getAnyActiveSession, hall, hdb]
      intro x hx
      rcases mem_activeIds.mp hx with hm | hd
      · rcases activeKeys_mset_cases hm with h1 | ⟨rfl, hact⟩
        · exact mem_activeIds.mpr (Or.inl h1)
        · rcases dbFindFirstActive_mem hdb with ⟨hmem, hact2⟩
          exact mem_activeIds.mpr (Or.inr (mem_activeRowIds.mpr ⟨row, hmem, hact2, rfl⟩))
      · exact mem_activeIds.mpr (Or.inr hd)

theorem getAnyActiveSession_none (st st1 : SMState)
    (h : getAnyActiveSession st = (none, st1)) :
    st1 = st ∧ getAllActiveSessions st = [] ∧ dbFindFirstActive st.db.sessions = none := by
  cases hall : getAllActiveSessions st with
  | cons a l =>
    simp only [getAnyActiveSession, hall] at h
    rw [Prod.mk.injEq] at h
    exact absurd h.1 (by simp)
  | nil =>
    cases hdb : dbFindFirstActive st.db.sessions with
    | some row =>
      simp only [getAnyActiveSession, hall, hdb] at h
      rw [Prod.mk.injEq] at h
      exact absurd h.1 (by simp)
    | none =>
      simp only [getAnyActiveSession, hall, hdb] at h
      rw [Prod.mk.injEq] at h
      exact ⟨h.2.symm, rfl, rfl⟩

theorem assignRoute_sub (st : SMState) (sid rid mid : String) (now : Nat) :
    ∀ x ∈ activeIds (assignRouteToSession st sid rid mid now).2, x ∈ activeIds st := by
  cases h1 : mget st.activeSessions sid with
  | none => simp only [assignRouteToSession, h1]; intro x hx; exact hx
  | some s =>
    by_cases hc : s.isActive = false ∨ ¬ s.managerId = mid
    · simp only [assignRouteToSession, h1, if_pos hc]; intro x hx; exact hx
    · cases h2 : mget st.db.routes rid with
      | none => simp only [assignRouteToSession, h1, if_neg hc, h2]; intro x hx; exact hx
      | some route =>
        by_cases h3 : (dbFindById st.db.sessions sid).isSome = true
        · simp only [assignRouteToSession, h1, if_neg hc, h2, if_pos h3]
          intro x hx
          rcases mem_activeIds.mp hx with hm | hd
          · exact mem_activeIds.mpr (Or.inl (activeKeys_mset_sub h1 (by rfl) x hm))
          · exact mem_activeIds.mpr (Or.inr (activeRowIds_setRoute_sub hd))
        · simp only [assignRouteToSession, h1, if_neg hc, h2, if_neg h3]
          intro x hx; exact hx

theorem setRouteMem_sub (st : SMState) (sid : String) (route : Route) :
    ∀ x ∈ activeIds (setSessionRouteInMemory st sid route), x ∈ activeIds st := by
  cases h1 : mget st.activeSessions sid with
  | none => simp only [setSessionRouteInMemory, h1]; intro x hx; exact hx
  | some s =>
    simp only [setSessionRouteInMemory, h1]
    intro x hx
    rcases mem_activeIds.mp hx with hm | hd
    · exact mem_activeIds.mpr (Or.inl (activeKeys_mset_sub h1 (by rfl) x hm))
    · exact mem_activeIds.mpr (Or.inr hd)

theorem initFold_mem (db : Db) (rows : List DbSession) :
    ∀ acc : SMState, ∀ x, x ∈ activeIds (initFold db rows acc) →
      x ∈ activeIds acc ∨ x ∈ rows.map DbSession.id := by
  induction rows with
  | nil => intro acc x hx; left; exact hx
  | cons r rest ih =>
    intro acc x hx
    simp only [initFold] at hx
    rcases ih _ x hx with h | h
    · rcases mem_activeIds.mp h with hm | hd
      · rcases activeKeys_mset_cases hm with h1 | ⟨rfl, _⟩
        · left; exact mem_activeIds.mpr (Or.inl h1)
        · right; exact List.mem_map.mpr ⟨r, List.mem_cons_self _ _, rfl⟩
      · left; exact mem_activeIds.mpr (Or.inr hd)
    · right
      rcases List.mem_map.mp h with ⟨r0, hr0, hx0⟩
      exact List.mem_map.mpr ⟨r0, List.mem_cons.mpr (Or.inr hr0), hx0⟩

theorem initFromDb_sub (st : SMState) :
    ∀ x ∈ activeIds (initFromDb st), x ∈ activeIds st := by
  intro x hx
  rcases initFold_mem st.db _ st x hx with h | h
  · exact h
  · rcases List.mem_map.mp h with ⟨r, hr, hx0⟩
    rcases List.mem_filter.mp hr with ⟨hmem, hact⟩
    exact mem_activeIds.mpr (Or.inr (mem_activeRowIds.mpr ⟨r, hmem, hact, hx0⟩))

theorem cleanup_sub (st : SMState) (now : Nat) :
    ∀ x ∈ activeIds (cleanup st now), x ∈ activeIds st := by
  intro x hx
  have h1 := initFromDb_sub _ x hx
  rcases mem_activeIds.mp h1 with hm | hd
  · exact mem_activeIds.mpr (Or.inl hm)
  · exact mem_activeIds.mpr (Or.inr (activeRowIds_sweep_sub hd))

theorem createSessionState_single (st : SMState) (mn : String) (rid : Option String)
    (sid mid : String) (draw now : Nat) (h : SingleActive st) :
    SingleActive (createSessionState st mn rid sid mid draw now) := by
  rcases hga : getAnyActiveSession st with ⟨os, st1⟩
  cases os with
  | some s =>
    have hsub := getAnyActive_sub st
    rw [hga] at hsub
    simp only [createSessionState, createSession, hga]
    exact singleActive_of_sub hsub h
  | none =>
    obtain ⟨rfl, hall, hdbn⟩ := getAnyActiveSession_none st st1 hga
    have hnomem : ∀ x, x ∈ activeKeys st1.activeSessions → False :=
      fun x hx => getAllActive_nil hall hx
    have hnodb : ∀ x, x ∈ activeRowIds st1.db.sessions → False := by
      intro x hx
      rcases mem_activeRowIds.mp hx with ⟨r, hr, hact, _⟩
      have hfalse := dbFindFirstActive_none hdbn r hr
      rw [hfalse] at hact
      cases hact
    have hok : ∀ route : Option Route,
        SingleActive (match createSessionFresh st1 mn rid route sid mid (generatePin draw) now with
          | Except.ok (_, st2) => st2
          | Except.error _ => st1) := by
      intro route
      unfold createSessionFresh dbCreateSession
      by_cases hconf : dbHasConflict st1.db.sessions sid (generatePin draw) = true
      · simp only [hconf, if_pos rfl, if_true]
        exact h
      · simp only [hconf, Bool.false_eq_true, if_false]
        apply singleActive_of_all_eq (c := sid)
        intro x hx
        rcases mem_activeIds.mp hx with hm | hd
        · rcases activeKeys_mset_cases hm with h1 | ⟨rfl, _⟩
          · exact (hnomem x h1).elim
          · rfl
        · rcases activeRowIds_append_cases hd with h1 | ⟨rfl, _⟩
          · exact (hnodb x h1).elim
          · rfl
    simp only [createSessionState, createSession, hga]
    cases rid with
    | none => exact hok none
    | some r =>
      cases hroute : mget st1.db.routes r with
      | none => simp only [hroute]; exact h
      | some route => simp only [hroute]; exact hok (some route)

theorem step_single {st st' : SMState} (hstep : Step st st') (h : SingleActive st) :
    SingleActive st' := by
  cases hstep with
  | create mn rid sid mid draw now => exact createSessionState_single st mn rid sid mid draw now h
  | join pin name pid now => exact singleActive_of_sub (joinSession_sub st pin name pid now) h
  | joinManager pin mn mid now => exact singleActive_of_sub (joinAsManager_sub st pin mn mid now) h
  | leave pid dbOk now => exact singleActive_of_sub (leaveSession_sub st pid dbOk now) h
  | endSess sid dbOk now => exact singleActive_of_sub (endSession_sub st sid dbOk now) h
  | updateLoc pid lat lng now => exact singleActive_of_sub (updateLoc_sub st pid lat lng now) h
  | anyActive => exact singleActive_of_sub (getAnyActive_sub st) h
  | rejoin sid pid => exact singleActive_of_sub (rejoin_sub st sid pid) h
  | initStep => exact singleActive_of_sub (initFromDb_sub st) h
  | cleanupStep now => exact singleActive_of_sub (cleanup_sub st now) h
  | assignRoute sid rid mid now => exact singleActive_of_sub (assignRoute_sub st sid rid mid now) h
  | setRoute sid route => exact singleActive_of_sub (setRouteMem_sub st sid route) h
  | routesStep routes => exact h

theorem reachable_single {st : SMState} (h : Reachable st) : SingleActive st := by
  induction h with
  | refl =>
    intro i hi j hj
    simp [activeIds, memActiveIds, dbActiveIds, initialState] at hi
  | tail hsteps hstep ih => exact step_single hstep ih

/-- Claim C5 (amended): generatePin is a single uniform draw with no
collision-retry loop — reuse of an ended (not yet swept) pin makes the
database insert fail rather than redraw (see the counterexample) — yet in
every state reachable from a fresh deployment at most one session is active
at a time, so at most one session with isActive = true holds any given pin,
whether cached in memory, persisted, or both (the memory copy and the active
database row always carry the same session id). -/
theorem pin_unique_while_active (st : SMState) (h : Reachable st) :
    (∀ e1 ∈ st.activeSessions, ∀ e2 ∈ st.activeSessions,
       e1.2.isActive = true → e2.2.isActive = true → e1.2.pin = e2.2.pin → e1.1 = e2.1) ∧
    (∀ r1 ∈ st.db.sessions, ∀ r2 ∈ st.db.sessions,
       r1.isActive = true → r2.isActive = true → r1.pin = r2.pin → r1.id = r2.id) ∧
    (∀ e ∈ st.activeSessions, ∀ r ∈ st.db.sessions,
       e.2.isActive = true → r.isActive = true → e.1 = r.id) := by
  have hs := reachable_single h
  refine ⟨?_, ?_, ?_⟩
  · intro e1 he1 e2 he2 ha1 ha2 _
    exact hs e1.1 (mem_activeIds.mpr (Or.inl (mem_activeKeys.mpr ⟨e1, he1, ha1, rfl⟩)))
      e2.1 (mem_activeIds.mpr (Or.inl (mem_activeKeys.mpr ⟨e2, he2, ha2, rfl⟩)))
  · intro r1 hr1 r2 hr2 ha1 ha2 _
    exact hs r1.id (mem_activeIds.mpr (Or.inr (mem_activeRowIds.mpr ⟨r1, hr1, ha1, rfl⟩)))
      r2.id (mem_activeIds.mpr (Or.inr (mem_activeRowIds.mpr ⟨r2, hr2, ha2, rfl⟩)))
  · intro e he r hr hae har
    exact hs e.1 (mem_activeIds.mpr (Or.inl (mem_activeKeys.mpr ⟨e, he, hae, rfl⟩)))
      r.id (mem_activeIds.mpr (Or.inr (mem_activeRowIds.mpr ⟨r, hr, har, rfl⟩)))

/-- The state of a deployment right after its first createSession call. -/
def firstSessionState : SMState :=
  createSessionState initialState "Alice" none "s1" "m1" 0 10

/-- Witness for pin_unique_while_active: the state reached by one
createSession step from the fresh deployment. -/
theorem pin_unique_while_active_witness :
    Reachable firstSessionState ∧
    ((∀ e1 ∈ firstSessionState.activeSessions, ∀ e2 ∈ firstSessionState.activeSessions,
        e1.2.isActive = true → e2.2.isActive = true → e1.2.pin = e2.2.pin → e1.1 = e2.1) ∧
     (∀ r1 ∈ firstSessionState.db.sessions, ∀ r2 ∈ firstSessionState.db.sessions,
        r1.isActive = true → r2.isActive = true → r1.pin = r2.pin → r1.id = r2.id) ∧
     (∀ e ∈ firstSessionState.activeSessions, ∀ r ∈ firstSessionState.db.sessions,
        e.2.isActive = true → r.isActive = true → e.1 = r.id)) :=
  have hreach : Reachable firstSessionState :=
    Relation.ReflTransGen.tail Relation.ReflTransGen.refl
      (Step.create initialState "Alice" none "s1" "m1" 0 10)
  ⟨hreach, pin_unique_while_active firstSessionState hreach⟩

end RideMapper
